import Mathlib

/-!
Verification of the client-side shopping-cart subsystem of the storefront
template: the Zustand cart store (`src/core/stores/cart`), its persistence
and rehydration configuration, the checkout orchestration in
`CartSidebar.tsx`, and the `ShopifyCartService` reconciliation adapter
(`ShopifyCartProvider`).

Modelling conventions:
- JavaScript numbers are modelled as exact rationals (`ℚ`); quantities as `Int`.
  `Math.round x` is modelled as `⌊x + 1/2⌋`, which is what JS `Math.round`
  computes for every finite argument.
- The JS decimal literals `0.085`, `100`, `10` are written `85/1000`, `100`, `10`.
- Optional TS fields are `Option`; an optional array field read only through
  `?.[0]` is modelled as a plain list (absent ≡ empty, which the code cannot
  distinguish).
- Zustand `set` performs a shallow merge of the returned partial state, so each
  store action is modelled as a total function on the whole state record that
  leaves unmentioned fields unchanged.
- `Date.now()`-based fresh line ids are passed in as an explicit argument.
- Network I/O is modelled by passing each remote call's outcome as an explicit
  oracle argument (responses for the Shopify client, a `Nat`-indexed fetch
  oracle for the checkout loop).
-/

namespace CartSpec

/-- `ProductVariant` from `src/core/services/types.ts` (fields the cart
subsystem never reads are omitted). -/
structure ProductVariant where
  id : String
  name : String
  price : ℚ
  inStock : Bool
deriving DecidableEq, Repr

/-- `Product` from `src/core/services/types.ts` (optional presentation-only
fields such as `rating` and `badge` are omitted; `variants?` is a list, absent
≡ empty). -/
structure Product where
  id : String
  name : String
  price : ℚ
  images : List String
  inStock : Bool
  variants : List ProductVariant
deriving DecidableEq, Repr

/-- `CartItem` from `src/core/services/types.ts`. -/
structure CartItem where
  id : String
  product : Product
  quantity : Int
  variantId : Option String
deriving DecidableEq, Repr

/-- The derived-totals record returned by `calculateTotals` in the cart store. -/
structure CartTotals where
  itemCount : Int
  subtotal : ℚ
  tax : ℚ
  shipping : ℚ
  total : ℚ
deriving DecidableEq, Repr

/-- The Zustand store state (`CartState` in `src/core/stores/cart`): the items
list, the drawer flag, and the five derived totals fields. -/
structure CartState where
  items : List CartItem
  isOpen : Bool
  itemCount : Int
  subtotal : ℚ
  tax : ℚ
  shipping : ℚ
  total : ℚ
deriving DecidableEq, Repr

/-- `Math.round (x*100) / 100`: round to 2 decimals. JS `Math.round y = ⌊y + 0.5⌋`
for all finite `y` (round half toward +∞, which agrees with round half away
from zero on nonnegative inputs). -/
def round2 (x : ℚ) : ℚ := (⌊x * 100 + 1/2⌋ : ℚ) / 100

/-- `items.reduce((sum, item) => sum + item.quantity, 0)`. -/
def rawItemCount (items : List CartItem) : Int :=
  items.foldl (fun sum it => sum + it.quantity) 0

/-- `items.reduce((sum, item) => sum + item.product.price * item.quantity, 0)`:
the unrounded subtotal. -/
def rawSubtotal (items : List CartItem) : ℚ :=
  items.foldl (fun sum it => sum + it.product.price * (it.quantity : ℚ)) 0

/-- `calculateTotals` from the cart store: tax is 8.5% of the unrounded
subtotal, shipping is free from an (unrounded) subtotal of 100 and otherwise a
flat 10, and `total` rounds the sum of the *unrounded* components. -/
def calculateTotals (items : List CartItem) : CartTotals :=
  let subtotal := rawSubtotal items
  let tax := subtotal * (85/1000)
  let shipping : ℚ := if 100 ≤ subtotal then 0 else 10
  let total := subtotal + tax + shipping
  { itemCount := rawItemCount items
    subtotal := round2 subtotal
    tax := round2 tax
    shipping := round2 shipping
    total := round2 total }

/-- The predicate of the `findIndex` scan in `addItem`:
`item.product.id === product.id && item.variantId === effectiveVariantId`. -/
def matchesLine (pid : String) (eff : Option String) (it : CartItem) : Bool :=
  it.product.id == pid && it.variantId == eff

/-- `variantId || product.variants?.[0]?.id`: JS `||` falls through on the
falsy values `undefined` and `""`. -/
def effectiveVariantId (variantId : Option String) (product : Product) : Option String :=
  match variantId with
  | some v => if v = "" then product.variants.head?.map ProductVariant.id else some v
  | none => product.variants.head?.map ProductVariant.id

/-- The new-items computation inside `addItem`: find the first
(product id, variant id) match; if found, bump that line's quantity, otherwise
append a fresh line. -/
def addItemLines (freshId : String) (product : Product) (quantity : Int)
    (eff : Option String) (items : List CartItem) : List CartItem :=
  match items.findIdx? (matchesLine product.id eff) with
  | some i =>
      items.mapIdx (fun j it =>
        if j = i then { it with quantity := it.quantity + quantity } else it)
  | none =>
      items ++ [{ id := freshId, product := product, quantity := quantity, variantId := eff }]

/-- `{ items: newItems, ...calculateTotals(newItems) }` merged into the state:
every line-list mutation ends by installing the recomputed totals. -/
def applyTotals (items : List CartItem) (s : CartState) : CartState :=
  let t := calculateTotals items
  { s with items := items, itemCount := t.itemCount, subtotal := t.subtotal,
           tax := t.tax, shipping := t.shipping, total := t.total }

/-- `addItem(product, quantity = 1, variantId?)` from the cart store, with the
`Date.now()`-generated line id passed in as `freshId`. -/
def addItem (freshId : String) (product : Product) (quantity : Int)
    (variantId : Option String) (s : CartState) : CartState :=
  let eff := effectiveVariantId variantId product
  applyTotals (addItemLines freshId product quantity eff s.items) s

/-- `updateQuantity(itemId, quantity)`: a non-positive target quantity removes
the line, otherwise the quantity is set absolutely on the matching line. -/
def updateQuantity (itemId : String) (quantity : Int) (s : CartState) : CartState :=
  if quantity ≤ 0 then
    applyTotals (s.items.filter (fun it => !(it.id == itemId))) s
  else
    applyTotals
      (s.items.map (fun it => if it.id == itemId then { it with quantity := quantity } else it)) s

/-- `removeItem(itemId)`. -/
def removeItem (itemId : String) (s : CartState) : CartState :=
  applyTotals (s.items.filter (fun it => !(it.id == itemId))) s

/-- `clearCart()`: empties the list and writes literal zero totals (note: not
`calculateTotals []`, which would charge shipping). -/
def clearCart (s : CartState) : CartState :=
  { s with items := [], itemCount := 0, subtotal := 0, tax := 0, shipping := 0, total := 0 }

/-- `toggleCart()`. -/
def toggleCart (s : CartState) : CartState := { s with isOpen := !s.isOpen }

/-- `openCart()`. -/
def openCart (s : CartState) : CartState := { s with isOpen := true }

/-- `closeCart()`. -/
def closeCart (s : CartState) : CartState := { s with isOpen := false }

/-- The store's initial state (the object literal at store creation). -/
def initialCartState : CartState :=
  { items := [], isOpen := false, itemCount := 0, subtotal := 0, tax := 0,
    shipping := 0, total := 0 }

/-- `partialize: (state) => ({ items: state.items })` — only the items list is
persisted. -/
def persistedItems (s : CartState) : List CartItem := s.items

/-- Rehydration: Zustand's persist middleware shallow-merges the persisted
partial record over the freshly initialised state, then the store's
`onRehydrateStorage` callback recomputes the totals — but only when
`state.items.length > 0`. -/
def rehydrate (items : List CartItem) : CartState :=
  let base := { initialCartState with items := items }
  if 0 < items.length then applyTotals items base else base

/-- The store mutations, as an operation alphabet for reachability arguments. -/
inductive CartOp where
  | addOp (freshId : String) (product : Product) (quantity : Int) (variantId : Option String)
  | updateOp (itemId : String) (quantity : Int)
  | removeOp (itemId : String)
  | clearOp
  | toggleOp
  | openOp
  | closeOp
deriving Repr

/-- Apply one store mutation. -/
def applyOp (s : CartState) : CartOp → CartState
  | .addOp freshId product quantity variantId => addItem freshId product quantity variantId s
  | .updateOp itemId quantity => updateQuantity itemId quantity s
  | .removeOp itemId => removeItem itemId s
  | .clearOp => clearCart s
  | .toggleOp => toggleCart s
  | .openOp => openCart s
  | .closeOp => closeCart s

/-- The state reached from the initial store by a sequence of mutations. -/
def applyOps (ops : List CartOp) : CartState :=
  ops.foldl applyOp initialCartState

/-! ### Checkout orchestration (`handleCheckout` in `CartSidebar.tsx`)

Each iteration of the loop POSTs one line to `/api/cart` and reads back a JSON
body; the outcome of the `n`-th POST is supplied by the oracle `fetchResp n`. -/

/-- The observable outcome of one `/api/cart` POST: `ok` is `response.ok`,
`checkoutUrl` is `data.checkoutUrl`, `errorText` is `data.error`. -/
structure FetchResponse where
  ok : Bool
  checkoutUrl : Option String
  errorText : Option String
deriving DecidableEq, Repr

/-- `item.variantId || item.product.variants?.[0]?.id` (CartSidebar line 34):
the same resolution rule as the store's `effectiveVariantId`. -/
def resolveCheckoutVariantId (it : CartItem) : Option String :=
  effectiveVariantId it.variantId it.product

/-- The loop-carried locals of `handleCheckout`: the last `checkoutUrl` seen,
plus instrumentation counting `console.warn` skips and issued remote calls. -/
structure CheckoutLoopState where
  checkoutUrl : Option String
  warnings : Nat
  calls : Nat
deriving DecidableEq, Repr

/-- The `for (const item of items)` loop: an unresolvable variant id skips the
line with a warning; a non-ok response throws (into the surrounding catch);
an ok response overwrites `checkoutUrl` with `data.checkoutUrl`. On throw the
loop state at that point is carried along with the error message. -/
def checkoutLoop (fetchResp : Nat → FetchResponse) :
    List CartItem → CheckoutLoopState → Except (String × CheckoutLoopState) CheckoutLoopState
  | [], st => .ok st
  | it :: rest, st =>
    match resolveCheckoutVariantId it with
    | none => checkoutLoop fetchResp rest { st with warnings := st.warnings + 1 }
    | some _ =>
      let r := fetchResp st.calls
      let st1 := { st with calls := st.calls + 1 }
      if r.ok then
        checkoutLoop fetchResp rest { st1 with checkoutUrl := r.checkoutUrl }
      else
        .error (r.errorText.getD "Failed to add item to cart", st1)

/-- The outcome of `handleCheckout`: the local store state afterwards, the
redirect target (if any), the rendered checkout error (if any), and the
instrumentation counters. -/
structure CheckoutResult where
  state : CartState
  redirectedTo : Option String
  errorMessage : Option String
  warnings : Nat
  remoteCalls : Nat

/-- `handleCheckout` from `CartSidebar.tsx`: empty cart returns immediately;
otherwise run the loop; a caught error or a missing checkout URL leaves the
store untouched and surfaces a message; a checkout URL triggers
`clearCart(); closeCart();` and the redirect. -/
def handleCheckout (fetchResp : Nat → FetchResponse) (s : CartState) : CheckoutResult :=
  if s.items.isEmpty then
    { state := s, redirectedTo := none, errorMessage := none, warnings := 0, remoteCalls := 0 }
  else
    match checkoutLoop fetchResp s.items { checkoutUrl := none, warnings := 0, calls := 0 } with
    | .error (e, st) =>
        { state := s, redirectedTo := none, errorMessage := some e,
          warnings := st.warnings, remoteCalls := st.calls }
    | .ok st =>
        match st.checkoutUrl with
        | some url =>
            { state := closeCart (clearCart s), redirectedTo := some url,
              errorMessage := none, warnings := st.warnings, remoteCalls := st.calls }
        | none =>
            { state := s, redirectedTo := none,
              errorMessage := some "No checkout URL received",
              warnings := st.warnings, remoteCalls := st.calls }

/-! ### `ShopifyCartService` (`ShopifyCartProvider`)

Each method's GraphQL round trip is supplied as an oracle argument: either the
client threw (`thrown`), or it returned `{ data, errors }` (`reply`, with
`errors : Bool` standing for the presence of a transport-level error list).
The `data` payload is the relevant mutation envelope (`cartCreate`,
`cartLinesAdd`, …) already projected out — JS reads it with optional chaining,
so an absent envelope is `none`. -/

/-- The fields of the Shopify cart object that the service logic reads. -/
structure ShopifyCart where
  id : String
  checkoutUrl : String
  totalQuantity : Int
deriving DecidableEq, Repr

/-- One entry of a `userErrors` list. -/
structure UserError where
  field : String
  message : String
deriving DecidableEq, Repr

/-- The outcome of one `client.request` call. -/
inductive ClientResult (α : Type) where
  | thrown (msg : String)
  | reply (data : Option α) (errors : Bool)
deriving Repr

/-- The `cartCreate` / `cartLinesAdd` / `cartLinesUpdate` / `cartLinesRemove`
mutation envelope: an optional cart and a `userErrors` list. -/
structure MutationEnvelope where
  cart : Option ShopifyCart
  userErrors : List UserError
deriving Repr

/-- The `cart` query envelope (`data.cart`, no `userErrors` field). -/
structure QueryEnvelope where
  cart : Option ShopifyCart
deriving Repr

/-- The service's only mutable state: `private cartId: string | null`. -/
structure ServiceState where
  cartId : Option String
deriving DecidableEq, Repr

/-- `data?.…?.userErrors?.length > 0` (an absent envelope gives `undefined > 0`,
i.e. `false`). -/
def envelopeHasUserErrors (data : Option MutationEnvelope) : Bool :=
  (data.map (fun d => decide (0 < d.userErrors.length))).getD false

/-- `createCart`: on a thrown request, a transport error list, or a non-empty
`userErrors` list, log and return `null` without touching `cartId`; otherwise
record the returned cart's id (when a cart came back) and return it. -/
def createCart (st : ServiceState) (resp : ClientResult MutationEnvelope) :
    ServiceState × Option ShopifyCart :=
  match resp with
  | .thrown _ => (st, none)
  | .reply data errors =>
    if errors || envelopeHasUserErrors data then (st, none)
    else
      match data with
      | some d =>
        match d.cart with
        | some cart => ({ st with cartId := some cart.id }, some cart)
        | none => (st, none)
      | none => (st, none)

/-- `getCart`: `null` without a request when no cart id is known; otherwise
`null` on throw or transport errors, else `data?.cart || null`. -/
def getCart (st : ServiceState) (resp : ClientResult QueryEnvelope) : Option ShopifyCart :=
  match st.cartId with
  | none => none
  | some _ =>
    match resp with
    | .thrown _ => none
    | .reply data errors =>
      if errors then none else data.bind QueryEnvelope.cart

/-- `getOrCreateCart`: fetch the known cart if an id exists and fall back to
`createCart` when the fetch fails or no id is known. -/
def getOrCreateCart (st : ServiceState) (getResp : ClientResult QueryEnvelope)
    (createResp : ClientResult MutationEnvelope) : ServiceState × Option ShopifyCart :=
  match st.cartId with
  | some _ =>
    match getCart st getResp with
    | some cart => (st, some cart)
    | none => createCart st createResp
  | none => createCart st createResp

/-- `ShopifyCartService.addItem`: ensure a cart exists, then issue the
`cartLinesAdd` mutation; any throw, transport error, or `userErrors` entry
yields `null`. -/
def serviceAddItem (st : ServiceState) (getResp : ClientResult QueryEnvelope)
    (createResp : ClientResult MutationEnvelope) (addResp : ClientResult MutationEnvelope) :
    ServiceState × Option ShopifyCart :=
  match getOrCreateCart st getResp createResp with
  | (st1, none) => (st1, none)
  | (st1, some _) =>
    match addResp with
    | .thrown _ => (st1, none)
    | .reply data errors =>
      if errors || envelopeHasUserErrors data then (st1, none)
      else (st1, data.bind MutationEnvelope.cart)

/-- `ShopifyCartService.updateQuantity`: `null` without a request when no cart
id is known; otherwise the same failure handling as `addItem`. `cartId` is
never modified. -/
def serviceUpdateQuantity (st : ServiceState) (resp : ClientResult MutationEnvelope) :
    Option ShopifyCart :=
  match st.cartId with
  | none => none
  | some _ =>
    match resp with
    | .thrown _ => none
    | .reply data errors =>
      if errors || envelopeHasUserErrors data then none
      else data.bind MutationEnvelope.cart

/-- `ShopifyCartService.removeItem`: identical control flow to
`serviceUpdateQuantity` with the `cartLinesRemove` mutation. -/
def serviceRemoveItem (st : ServiceState) (resp : ClientResult MutationEnvelope) :
    Option ShopifyCart :=
  match st.cartId with
  | none => none
  | some _ =>
    match resp with
    | .thrown _ => none
    | .reply data errors =>
      if errors || envelopeHasUserErrors data then none
      else data.bind MutationEnvelope.cart

/-! ### Derived definitions used by the proofs -/

/-- Single-pass recursive form of the `findIndex`-then-`map` new-items
computation of `addItem`; proved extensionally equal to `addItemLines` in
`addItemLines_eq_addMerge` and used for structural induction. -/
def addMerge (freshId : String) (product : Product) (quantity : Int)
    (eff : Option String) : List CartItem → List CartItem
  | [] => [{ id := freshId, product := product, quantity := quantity, variantId := eff }]
  | it :: rest =>
    if matchesLine product.id eff it then
      { it with quantity := it.quantity + quantity } :: rest
    else
      it :: addMerge freshId product quantity eff rest

/-- The merge identity of a line: (product id, resolved variant id). -/
def lineKey (it : CartItem) : String × Option String := (it.product.id, it.variantId)

/-- The five derived-totals fields of a store state, as a totals record. -/
def stateTotals (s : CartState) : CartTotals :=
  { itemCount := s.itemCount, subtotal := s.subtotal, tax := s.tax,
    shipping := s.shipping, total := s.total }

/-- The all-zero totals written by `clearCart` and store initialisation. -/
def zeroTotals : CartTotals :=
  { itemCount := 0, subtotal := 0, tax := 0, shipping := 0, total := 0 }

/-- Invariant of every reachable store state: line keys are pairwise distinct,
and the totals fields are either the recomputation from the current items or
the literal zeros of `clearCart`/initialisation (the two coincide only for
carts that never went through a list mutation ending empty). -/
def StoreInv (s : CartState) : Prop :=
  (s.items.map lineKey).Nodup ∧
    (stateTotals s = calculateTotals s.items ∨ (s.items = [] ∧ stateTotals s = zeroTotals))

/-- `addQuantityPos op` holds when the operation is not an `addItem` call with
a non-positive requested quantity. -/
def addQuantityPos : CartOp → Bool
  | .addOp _ _ q _ => decide (1 ≤ q)
  | _ => true

/-! Concrete data for counterexamples and witnesses. -/

/-- A variant used by sample products. -/
def sampleVariant : ProductVariant :=
  { id := "var-1", name := "Default", price := 20, inStock := true }

/-- A product with no variants. -/
def sampleProduct : Product :=
  { id := "p1", name := "Sample", price := 50, images := [], inStock := true, variants := [] }

/-- A product whose variants list is non-empty, so a line without a stored
variant id still resolves. -/
def variantedProduct : Product :=
  { id := "p2", name := "Varianted", price := 20, images := [], inStock := true,
    variants := [sampleVariant] }

/-- A product priced at 0.075 (= 3/40): its subtotal and tax land on half-cent
boundaries that separate the two total-rounding orders. -/
def fractionProduct : Product :=
  { id := "p075", name := "Fraction", price := 3/40, images := [], inStock := true,
    variants := [] }

/-- One line of `fractionProduct`. -/
def fractionItem : CartItem :=
  { id := "l1", product := fractionProduct, quantity := 1, variantId := none }

/-- One line whose raw subtotal is exactly 100.00. -/
def hundredItem : CartItem :=
  { id := "l100",
    product := { id := "p100", name := "Hundred", price := 100, images := [],
                 inStock := true, variants := [] },
    quantity := 1, variantId := none }

/-- One line whose raw subtotal is exactly 99.99. -/
def ninetyNineItem : CartItem :=
  { id := "l9999",
    product := { id := "p9999", name := "NinetyNine", price := 9999/100, images := [],
                 inStock := true, variants := [] },
    quantity := 1, variantId := none }

/-- A reachable one-line state used by witnesses. -/
def oneLineState : CartState :=
  applyOps [CartOp.addOp "a1" sampleProduct 1 none]

/-- Positive-quantity operation sequence used by the C2 witness. -/
def posOpsSample : List CartOp :=
  [CartOp.addOp "a1" sampleProduct 2 none, CartOp.updateOp "a1" 0]

/-- Add one line, then remove it: the cart is empty but the recomputed totals
charge the flat shipping fee. -/
def emptyByRemovalOps : List CartOp :=
  [CartOp.addOp "i1" sampleProduct 1 none, CartOp.removeOp "i1"]

/-- A three-line cart for the checkout partial-failure scenario: the first line
stores a variant id, the second has no variant id and a variantless product
(unresolvable), the third resolves through its product's first variant. -/
def threeLineState : CartState :=
  { initialCartState with items :=
      [{ id := "c1", product := variantedProduct, quantity := 1, variantId := some "v-a" },
       { id := "c2", product := sampleProduct, quantity := 2, variantId := none },
       { id := "c3", product := variantedProduct, quantity := 1, variantId := none }] }

/-- A one-resolvable-line cart used by the C7 witness. -/
def oneResolvableState : CartState :=
  { initialCartState with items :=
      [{ id := "c1", product := variantedProduct, quantity := 1, variantId := some "v-a" }] }

/-- A fetch oracle whose every response succeeds and carries a checkout URL. -/
def okFetch : Nat → FetchResponse :=
  fun _ => { ok := true, checkoutUrl := some "https://shop.example/checkout", errorText := none }

/-- A fetch oracle whose every response is a non-ok HTTP response. -/
def failFetch : Nat → FetchResponse :=
  fun _ => { ok := false, checkoutUrl := none, errorText := some "boom" }

/-! ### Helper lemmas about the merge step -/

theorem findIdx?_start_add_one {α : Type} (p : α → Bool) (xs : List α) (i : Nat) :
    List.findIdx? p xs (i + 1) = (List.findIdx? p xs i).map (· + 1) := by
  induction xs generalizing i with
  | nil => simp [List.findIdx?_nil]
  | cons x rest ih =>
    by_cases h : p x
    · simp [List.findIdx?_cons, h]
    · simp only [List.findIdx?_cons, h, Bool.false_eq_true, if_false]
      exact ih (i + 1)

theorem mapIdx_id_of_eq {α : Type} (l : List α) (f : Nat → α → α)
    (hf : ∀ j x, f j x = x) : l.mapIdx f = l := by
  induction l generalizing f with
  | nil => simp
  | cons a l ih =>
    rw [List.mapIdx_cons, hf 0 a, ih (fun i => f (i + 1)) (fun j x => hf (j + 1) x)]

theorem mapIdx_congrFun {α β : Type} (l : List α) (f g : Nat → α → β)
    (h : ∀ j x, f j x = g j x) : l.mapIdx f = l.mapIdx g := by
  induction l generalizing f g with
  | nil => simp
  | cons a l ih =>
    rw [List.mapIdx_cons, List.mapIdx_cons, h 0 a,
        ih (fun i => f (i + 1)) (fun i => g (i + 1)) (fun j x => h (j + 1) x)]

theorem addItemLines_eq_addMerge (f : String) (p : Product) (q : Int)
    (e : Option String) (items : List CartItem) :
    addItemLines f p q e items = addMerge f p q e items := by
  induction items with
  | nil => rfl
  | cons it rest ih =>
    by_cases h : matchesLine p.id e it
    · simp only [addItemLines, addMerge, List.findIdx?_cons, h, if_true, List.mapIdx_cons,
        if_pos rfl]
      rw [mapIdx_id_of_eq]
      intro j x
      simp
    · cases hr : List.findIdx? (matchesLine p.id e) rest 0 with
      | none =>
          have e1 : addItemLines f p q e (it :: rest) =
              (it :: rest) ++
                [{ id := f, product := p, quantity := q, variantId := e }] := by
            simp only [addItemLines, List.findIdx?_cons, h, Bool.false_eq_true, if_false,
              findIdx?_start_add_one, hr, Option.map_none']
          rw [e1]
          simp only [addMerge, h, Bool.false_eq_true, if_false, List.cons_append,
            List.cons.injEq, true_and]
          rw [← ih]
          simp only [addItemLines, hr]
      | some i =>
          have e1 : addItemLines f p q e (it :: rest) =
              (it :: rest).mapIdx (fun j x =>
                if j = i + 1 then { x with quantity := x.quantity + q } else x) := by
            simp only [addItemLines, List.findIdx?_cons, h, Bool.false_eq_true, if_false,
              findIdx?_start_add_one, hr, Option.map_some']
          rw [e1, List.mapIdx_cons]
          rw [if_neg (by omega)]
          simp only [addMerge, h, Bool.false_eq_true, if_false, List.cons.injEq, true_and]
          rw [mapIdx_congrFun rest _
            (fun j x => if j = i then { x with quantity := x.quantity + q } else x)
            (fun j x => by simp only [Nat.add_right_cancel_iff])]
          rw [← ih]
          simp only [addItemLines, hr]

theorem matchesLine_quantity_set (pid : String) (e : Option String) (it : CartItem) (z : Int) :
    matchesLine pid e { it with quantity := z } = matchesLine pid e it := rfl

theorem matchesLine_self (f : String) (p : Product) (q : Int) (e : Option String) :
    matchesLine p.id e { id := f, product := p, quantity := q, variantId := e } = true := by
  simp [matchesLine]

/-- The matching sub-list after a merge step: an empty match list becomes the
singleton fresh line; otherwise the first match's quantity is bumped. -/
theorem addMerge_filter (f : String) (p : Product) (q : Int) (e : Option String)
    (items : List CartItem) :
    (addMerge f p q e items).filter (matchesLine p.id e) =
      match items.filter (matchesLine p.id e) with
      | [] => [{ id := f, product := p, quantity := q, variantId := e }]
      | x :: xs => { x with quantity := x.quantity + q } :: xs := by
  induction items with
  | nil => simp [addMerge, List.filter, matchesLine_self]
  | cons it rest ih =>
    by_cases h : matchesLine p.id e it
    · simp only [addMerge, h, if_true, List.filter_cons, matchesLine_quantity_set]
    · simp only [addMerge, h, Bool.false_eq_true, if_false, List.filter_cons, ih]

theorem addMerge_of_no_match (f : String) (p : Product) (q : Int) (e : Option String)
    (items : List CartItem) (h : ∀ it ∈ items, matchesLine p.id e it = false) :
    addMerge f p q e items =
      items ++ [{ id := f, product := p, quantity := q, variantId := e }] := by
  induction items with
  | nil => rfl
  | cons it rest ih =>
    have hit := h it (List.mem_cons_self it rest)
    simp only [addMerge, hit, Bool.false_eq_true, if_false, List.cons_append, List.cons.injEq,
      true_and]
    exact ih (fun x hx => h x (List.mem_cons_of_mem it hx))

theorem matchesLine_iff_lineKey (pid : String) (e : Option String) (it : CartItem) :
    matchesLine pid e it = true ↔ lineKey it = (pid, e) := by
  simp [matchesLine, lineKey, Prod.ext_iff]

theorem addMerge_map_lineKey (f : String) (p : Product) (q : Int) (e : Option String)
    (items : List CartItem) :
    (addMerge f p q e items).map lineKey =
      if items.any (matchesLine p.id e) then items.map lineKey
      else items.map lineKey ++ [(p.id, e)] := by
  induction items with
  | nil => simp [addMerge, lineKey]
  | cons it rest ih =>
    by_cases h : matchesLine p.id e it
    · simp only [addMerge, h, if_true, List.map_cons, List.any_cons, Bool.true_or]
      rfl
    · simp only [addMerge, h, Bool.false_eq_true, if_false, List.map_cons, List.any_cons,
        Bool.false_or, ih]
      by_cases ha : rest.any (matchesLine p.id e)
      · simp [ha]
      · simp [ha]

theorem keysNodup_addMerge (f : String) (p : Product) (q : Int) (e : Option String)
    (items : List CartItem) (h : (items.map lineKey).Nodup) :
    ((addMerge f p q e items).map lineKey).Nodup := by
  rw [addMerge_map_lineKey]
  by_cases ha : items.any (matchesLine p.id e)
  · simpa [ha] using h
  · have hnotin : (p.id, e) ∉ items.map lineKey := by
      intro hmem
      rcases List.mem_map.mp hmem with ⟨it, hit, hkey⟩
      have : matchesLine p.id e it = true := (matchesLine_iff_lineKey p.id e it).mpr hkey
      exact ha (List.any_eq_true.mpr ⟨it, hit, this⟩)
    simp only [ha, Bool.false_eq_true, if_false]
    rw [List.nodup_append]
    exact ⟨h, List.nodup_singleton _, by simpa using hnotin⟩

theorem keysNodup_filter (pr : CartItem → Bool) (items : List CartItem)
    (h : (items.map lineKey).Nodup) : ((items.filter pr).map lineKey).Nodup :=
  h.sublist ((List.filter_sublist items).map lineKey)

theorem keysNodup_map_of_key_fixed (g : CartItem → CartItem) (items : List CartItem)
    (hg : ∀ it, lineKey (g it) = lineKey it) (h : (items.map lineKey).Nodup) :
    ((items.map g).map lineKey).Nodup := by
  rw [List.map_map]
  have : (lineKey ∘ g) = lineKey := funext hg
  rw [this]
  exact h

/-- A list of pairwise-distinct keys has at most one line with any given key. -/
theorem filter_length_le_one_of_keysNodup (items : List CartItem)
    (h : (items.map lineKey).Nodup) (pid : String) (e : Option String) :
    (items.filter (matchesLine pid e)).length ≤ 1 := by
  have hsub : List.Sublist ((items.filter (matchesLine pid e)).map lineKey)
      (items.map lineKey) :=
    (List.filter_sublist items).map lineKey
  have hnd := h.sublist hsub
  have hall : ∀ k ∈ (items.filter (matchesLine pid e)).map lineKey, k = (pid, e) := by
    intro k hk
    rcases List.mem_map.mp hk with ⟨it, hit, hkey⟩
    have hm := (List.mem_filter.mp hit).2
    rw [← hkey]
    exact (matchesLine_iff_lineKey pid e it).mp hm
  have hlen : ((items.filter (matchesLine pid e)).map lineKey).length ≤ 1 := by
    cases hml : (items.filter (matchesLine pid e)).map lineKey with
    | nil => simp
    | cons k tl =>
      cases htl : tl with
      | nil => simp
      | cons k' tl' =>
        exfalso
        rw [hml, htl] at hnd hall
        have hk := hall k (by simp)
        have hk' := hall k' (by simp)
        rw [List.nodup_cons] at hnd
        exact hnd.1 (by rw [hk, ← hk']; simp)
  simpa using hlen

/-! ### Store invariants over reachable states -/

theorem stateTotals_applyTotals (items : List CartItem) (s : CartState) :
    stateTotals (applyTotals items s) = calculateTotals items := rfl

theorem items_applyTotals (items : List CartItem) (s : CartState) :
    (applyTotals items s).items = items := rfl

theorem addItem_items (freshId : String) (product : Product) (quantity : Int)
    (variantId : Option String) (s : CartState) :
    (addItem freshId product quantity variantId s).items =
      addMerge freshId product quantity (effectiveVariantId variantId product) s.items := by
  simp only [addItem, items_applyTotals, addItemLines_eq_addMerge]

theorem storeInv_applyOp (s : CartState) (op : CartOp) (h : StoreInv s) :
    StoreInv (applyOp s op) := by
  cases op with
  | addOp freshId product quantity variantId =>
      constructor
      · simp only [applyOp]
        rw [addItem_items]
        exact keysNodup_addMerge _ _ _ _ _ h.1
      · exact Or.inl (stateTotals_applyTotals _ _)
  | updateOp itemId quantity =>
      by_cases hq : quantity ≤ 0
      · exact ⟨by simpa only [applyOp, updateQuantity, if_pos hq, items_applyTotals] using
            keysNodup_filter _ _ h.1,
          by simp only [applyOp, updateQuantity, if_pos hq]; exact Or.inl rfl⟩
      · refine ⟨?_, by simp only [applyOp, updateQuantity, if_neg hq]; exact Or.inl rfl⟩
        simp only [applyOp, updateQuantity, if_neg hq, items_applyTotals]
        refine keysNodup_map_of_key_fixed _ _ (fun it => ?_) h.1
        by_cases hid : it.id == itemId
        · simp [hid, lineKey]
        · simp [hid]
  | removeOp itemId =>
      exact ⟨by simpa only [applyOp, removeItem, items_applyTotals] using
          keysNodup_filter _ _ h.1,
        Or.inl (stateTotals_applyTotals _ _)⟩
  | clearOp => exact ⟨by simp [applyOp, clearCart], Or.inr ⟨rfl, rfl⟩⟩
  | toggleOp => exact ⟨h.1, h.2⟩
  | openOp => exact ⟨h.1, h.2⟩
  | closeOp => exact ⟨h.1, h.2⟩

theorem storeInv_initial : StoreInv initialCartState :=
  ⟨by simp [initialCartState], Or.inr ⟨rfl, rfl⟩⟩

theorem storeInv_foldl (ops : List CartOp) :
    ∀ s : CartState, StoreInv s → StoreInv (ops.foldl applyOp s) := by
  induction ops with
  | nil => exact fun s h => h
  | cons op rest ih => exact fun s h => ih (applyOp s op) (storeInv_applyOp s op h)

theorem storeInv_applyOps (ops : List CartOp) : StoreInv (applyOps ops) :=
  storeInv_foldl ops initialCartState storeInv_initial

theorem linesPos_addMerge (f : String) (p : Product) (q : Int) (e : Option String)
    (items : List CartItem) (hq : 1 ≤ q) (h : ∀ it ∈ items, 1 ≤ it.quantity) :
    ∀ it ∈ addMerge f p q e items, 1 ≤ it.quantity := by
  induction items with
  | nil =>
      intro it hit
      simp only [addMerge, List.mem_singleton] at hit
      subst hit
      exact hq
  | cons x rest ih =>
      intro it hit
      by_cases hm : matchesLine p.id e x
      · simp only [addMerge, hm, if_true, List.mem_cons] at hit
        rcases hit with rfl | hmem
        · have := h x (List.mem_cons_self x rest)
          simp only
          omega
        · exact h it (List.mem_cons_of_mem x hmem)
      · simp only [addMerge, hm, Bool.false_eq_true, if_false, List.mem_cons] at hit
        rcases hit with rfl | hmem
        · exact h it (List.mem_cons_self it rest)
        · exact ih (fun y hy => h y (List.mem_cons_of_mem x hy)) it hmem

theorem linesPos_applyOp (s : CartState) (op : CartOp) (hop : addQuantityPos op = true)
    (h : ∀ it ∈ s.items, 1 ≤ it.quantity) :
    ∀ it ∈ (applyOp s op).items, 1 ≤ it.quantity := by
  cases op with
  | addOp freshId product quantity variantId =>
      simp only [applyOp]
      rw [addItem_items]
      exact linesPos_addMerge _ _ _ _ _ (by simpa [addQuantityPos] using hop) h
  | updateOp itemId quantity =>
      by_cases hq : quantity ≤ 0
      · simp only [applyOp, updateQuantity, if_pos hq, items_applyTotals]
        exact fun it hit => h it (List.mem_filter.mp hit).1
      · simp only [applyOp, updateQuantity, if_neg hq, items_applyTotals]
        intro it hit
        rcases List.mem_map.mp hit with ⟨x, hx, rfl⟩
        by_cases hid : x.id == itemId
        · simp only [hid, if_true]
          omega
        · simp only [hid, Bool.false_eq_true, if_false]
          exact h x hx
  | removeOp itemId =>
      exact fun it hit => h it (List.mem_filter.mp hit).1
  | clearOp => intro it hit; simp [applyOp, clearCart] at hit
  | toggleOp => exact h
  | openOp => exact h
  | closeOp => exact h

theorem linesPos_foldl (ops : List CartOp) (hpos : ∀ op ∈ ops, addQuantityPos op = true) :
    ∀ s : CartState, (∀ it ∈ s.items, 1 ≤ it.quantity) →
      ∀ it ∈ (ops.foldl applyOp s).items, 1 ≤ it.quantity := by
  induction ops with
  | nil => exact fun s h => h
  | cons op rest ih =>
      intro s h
      exact ih (fun o ho => hpos o (List.mem_cons_of_mem op ho)) (applyOp s op)
        (linesPos_applyOp s op (hpos op (List.mem_cons_self op rest)) h)

/-! ### Claim theorems -/

theorem effectiveVariantId_some (V : String) (P : Product) (hV : V ≠ "") :
    effectiveVariantId (some V) P = some V := by
  simp [effectiveVariantId, hV]

/-- C1: on any reachable cart state, adding a product P twice with the same
explicitly supplied variant id V (and positive quantities q1, q2) leaves
exactly one line keyed by (P.id, V), whose quantity exceeds the initial
matching quantity by q1 + q2; and an add whose resolved key matches no
existing line appends a new line. -/
theorem addItem_merge_invariant (ops : List CartOp) (P : Product) (V : String)
    (q1 q2 : Int) (f1 f2 : String) (hV : V ≠ "") (hq1 : 1 ≤ q1) (hq2 : 1 ≤ q2) :
    (((addItem f2 P q2 (some V) (addItem f1 P q1 (some V) (applyOps ops))).items.filter
        (matchesLine P.id (some V))).length = 1
      ∧ (((addItem f2 P q2 (some V) (addItem f1 P q1 (some V) (applyOps ops))).items.filter
          (matchesLine P.id (some V))).map CartItem.quantity).sum
          = (((applyOps ops).items.filter (matchesLine P.id (some V))).map
              CartItem.quantity).sum + q1 + q2)
    ∧ ∀ (s : CartState) (f : String) (P' : Product) (q : Int) (vid : Option String),
        (∀ it ∈ s.items, matchesLine P'.id (effectiveVariantId vid P') it = false) →
        (addItem f P' q vid s).items =
          s.items ++ [{ id := f, product := P', quantity := q,
                        variantId := effectiveVariantId vid P' }] := by
  constructor
  · have heff := effectiveVariantId_some V P hV
    have hnodup := (storeInv_applyOps ops).1
    have hle := filter_length_le_one_of_keysNodup _ hnodup P.id (some V)
    rw [addItem_items, addItem_items, heff]
    cases hm : (applyOps ops).items.filter (matchesLine P.id (some V)) with
    | nil =>
        have h1 : (addMerge f1 P q1 (some V) (applyOps ops).items).filter
            (matchesLine P.id (some V)) =
            [{ id := f1, product := P, quantity := q1, variantId := some V }] := by
          rw [addMerge_filter, hm]
        have h2 : (addMerge f2 P q2 (some V)
            (addMerge f1 P q1 (some V) (applyOps ops).items)).filter
            (matchesLine P.id (some V)) =
            [{ id := f1, product := P, quantity := q1 + q2, variantId := some V }] := by
          rw [addMerge_filter, h1]
        rw [h2]
        refine ⟨rfl, ?_⟩
        simp only [List.map_cons, List.map_nil, List.sum_cons, List.sum_nil]
        omega
    | cons x xs =>
        have hxs : xs = [] := by
          rw [hm] at hle
          simpa using hle
        subst hxs
        have h1 : (addMerge f1 P q1 (some V) (applyOps ops).items).filter
            (matchesLine P.id (some V)) =
            [{ x with quantity := x.quantity + q1 }] := by
          rw [addMerge_filter, hm]
        have h2 : (addMerge f2 P q2 (some V)
            (addMerge f1 P q1 (some V) (applyOps ops).items)).filter
            (matchesLine P.id (some V)) =
            [{ x with quantity := x.quantity + q1 + q2 }] := by
          rw [addMerge_filter, h1]
        rw [h2]
        refine ⟨rfl, ?_⟩
        simp only [List.map_cons, List.map_nil, List.sum_cons, List.sum_nil]
        omega
  · intro s f P' q vid h
    rw [addItem_items]
    exact addMerge_of_no_match _ _ _ _ _ h

/-- C1 witness: starting from the empty cart, two adds of the same product and
variant with quantities 1 and 2 leave exactly one matching line. -/
theorem addItem_merge_invariant_witness :
    "v1" ≠ "" ∧ (1 : Int) ≤ 1 ∧ (1 : Int) ≤ 2 ∧
    ((addItem "b" sampleProduct 2 (some "v1")
        (addItem "a" sampleProduct 1 (some "v1") (applyOps []))).items.filter
      (matchesLine sampleProduct.id (some "v1"))).length = 1 :=
  ⟨by decide, by decide, by decide,
    (addItem_merge_invariant [] sampleProduct "v1" 1 2 "a" "b" (by decide) (by decide)
      (by decide)).1.1⟩

theorem cartState_eq_of_parts (s1 s2 : CartState) (hi : s1.items = s2.items)
    (ho : s1.isOpen = s2.isOpen) (ht : stateTotals s1 = stateTotals s2) : s1 = s2 := by
  cases s1
  cases s2
  simp only [stateTotals, CartTotals.mk.injEq] at ht
  simp_all

/-- C2 counterexample: `addItem` does not clamp a caller-supplied quantity of
0 — on the empty cart it creates a line with quantity 0, so the "quantity ≥ 1
for every reachable cart" claim is false as stated. -/
theorem quantity_invariant_counterexample :
    ¬ (∀ it ∈ (applyOps [CartOp.addOp "cart-item-0" sampleProduct 0 none]).items,
        1 ≤ it.quantity) := by
  decide

/-- C2 amended: restricted to operation sequences whose `addItem` calls all
supply a quantity ≥ 1 (which includes the default of 1), every line of every
reachable cart has quantity ≥ 1; and `updateQuantity` with a target of 0 or a
negative value removes the line rather than retaining it. -/
theorem quantity_invariant_amended (ops : List CartOp)
    (hpos : ∀ op ∈ ops, addQuantityPos op = true) :
    (∀ it ∈ (applyOps ops).items, 1 ≤ it.quantity)
    ∧ ∀ (s : CartState) (itemId : String) (q : Int), q ≤ 0 →
        (updateQuantity itemId q s).items = s.items.filter (fun it => !(it.id == itemId)) := by
  constructor
  · refine linesPos_foldl ops hpos initialCartState ?_
    intro it hit
    simp [initialCartState] at hit
  · intro s itemId q hq
    simp only [updateQuantity, if_pos hq, items_applyTotals]

/-- C2 witness: a positive add followed by an `updateQuantity` to 0 keeps all
remaining quantities ≥ 1. -/
theorem quantity_invariant_amended_witness :
    (∀ op ∈ posOpsSample, addQuantityPos op = true)
    ∧ ∀ it ∈ (applyOps posOpsSample).items, 1 ≤ it.quantity :=
  ⟨by decide, (quantity_invariant_amended posOpsSample (by decide)).1⟩

/-- C3 counterexample: for a single line priced 0.075 the stored total
(rounding of the unrounded sum, 10.08) differs from the rounding of the sum of
the already-rounded components (10.09), so the claimed total formula is false. -/
theorem totals_rounding_counterexample :
    (calculateTotals [fractionItem]).total ≠
      round2 ((calculateTotals [fractionItem]).subtotal + (calculateTotals [fractionItem]).tax
        + (calculateTotals [fractionItem]).shipping) := by
  norm_num [calculateTotals, rawSubtotal, round2, fractionItem, fractionProduct]

/-- C3 amended: each of subtotal, tax, and shipping is independently rounded
to 2 decimals for publication, but the stored total is the rounding of the sum
of the *unrounded* components — `round2 (raw subtotal + raw tax + shipping)` —
which can differ by a cent from `round2 (round2 s + round2 t + round2 sh)`. -/
theorem totals_rounding_amended (items : List CartItem) :
    (calculateTotals items).subtotal = round2 (rawSubtotal items)
    ∧ (calculateTotals items).tax = round2 (rawSubtotal items * (85/1000))
    ∧ (calculateTotals items).shipping = round2 (if 100 ≤ rawSubtotal items then 0 else 10)
    ∧ (calculateTotals items).total =
        round2 (rawSubtotal items + rawSubtotal items * (85/1000)
          + (if 100 ≤ rawSubtotal items then 0 else 10)) :=
  ⟨rfl, rfl, rfl, rfl⟩

/-- C4 counterexample: on the freshly initialised empty cart (all totals zero),
`updateQuantity` with an unknown line id is *not* a state no-op — it recomputes
the totals, which charges the flat shipping fee on the empty list and flips the
stored total from 0 to 10. -/
theorem updateQuantity_noop_counterexample :
    initialCartState.items = [] ∧ (updateQuantity "x" 1 initialCartState).total = 10
      ∧ initialCartState.total = 0 := by
  refine ⟨rfl, ?_, rfl⟩
  show (calculateTotals []).total = 10
  norm_num [calculateTotals, rawSubtotal, round2]

/-- C4 amended: `updateQuantity` with quantity ≤ 0 removes the line; with
quantity ≥ 1 it sets the quantity absolutely; with an unknown line id it
leaves the items list and the drawer flag unchanged and throws nothing, but it
still recomputes the totals from the (unchanged) items — so the whole state is
unchanged exactly when the stored totals already equal the recomputation, which
holds in every reachable state except an empty cart whose totals were zeroed by
`clearCart` or initialisation. -/
theorem updateQuantity_amended (s : CartState) (itemId : String) (q : Int) :
    (q ≤ 0 → (updateQuantity itemId q s).items = s.items.filter (fun it => !(it.id == itemId)))
    ∧ (1 ≤ q → (updateQuantity itemId q s).items
        = s.items.map (fun it => if it.id == itemId then { it with quantity := q } else it))
    ∧ ((∀ it ∈ s.items, (it.id == itemId) = false) →
        (updateQuantity itemId q s).items = s.items
        ∧ (updateQuantity itemId q s).isOpen = s.isOpen
        ∧ stateTotals (updateQuantity itemId q s) = calculateTotals s.items
        ∧ (stateTotals s = calculateTotals s.items → updateQuantity itemId q s = s)) := by
  refine ⟨?_, ?_, ?_⟩
  · intro hq
    simp only [updateQuantity, if_pos hq, items_applyTotals]
  · intro hq
    have hq' : ¬ q ≤ 0 := by omega
    simp only [updateQuantity, if_neg hq', items_applyTotals]
  · intro h
    have hfix : (updateQuantity itemId q s).items = s.items := by
      by_cases hq : q ≤ 0
      · simp only [updateQuantity, if_pos hq, items_applyTotals]
        exact List.filter_eq_self.mpr (fun it hit => by simp [h it hit])
      · simp only [updateQuantity, if_neg hq, items_applyTotals]
        calc s.items.map (fun it => if it.id == itemId then { it with quantity := q } else it)
            = s.items.map id := by
              refine List.map_congr_left (fun it hit => ?_)
              simp [h it hit]
          _ = s.items := List.map_id s.items
    have hopen : (updateQuantity itemId q s).isOpen = s.isOpen := by
      by_cases hq : q ≤ 0
      · simp only [updateQuantity, if_pos hq]
        rfl
      · simp only [updateQuantity, if_neg hq]
        rfl
    have htot : stateTotals (updateQuantity itemId q s) = calculateTotals s.items := by
      by_cases hq : q ≤ 0
      · rw [show stateTotals (updateQuantity itemId q s)
            = calculateTotals (updateQuantity itemId q s).items from by
              simp only [updateQuantity, if_pos hq]
              exact stateTotals_applyTotals _ _, hfix]
      · rw [show stateTotals (updateQuantity itemId q s)
            = calculateTotals (updateQuantity itemId q s).items from by
              simp only [updateQuantity, if_neg hq]
              exact stateTotals_applyTotals _ _, hfix]
    refine ⟨hfix, hopen, htot, fun hsync => ?_⟩
    exact cartState_eq_of_parts _ _ hfix hopen (by rw [htot, hsync])

/-- C4 witness: on a reachable one-line cart with synced totals, an update with
an unknown line id is a full state no-op. -/
theorem updateQuantity_amended_witness :
    (∀ it ∈ oneLineState.items, (it.id == "zz") = false)
    ∧ updateQuantity "zz" 7 oneLineState = oneLineState := by
  have h := (updateQuantity_amended oneLineState "zz" 7).2.2 (by decide)
  exact ⟨by decide, h.2.2.2 rfl⟩

/-- C5: the recomputed shipping component is 0 exactly when the (unrounded)
subtotal is at least 100, and the flat 10 otherwise; a subtotal of exactly
100.00 ships free and a subtotal of 99.99 pays 10.00. -/
theorem shipping_threshold (items : List CartItem) :
    ((calculateTotals items).shipping = if 100 ≤ rawSubtotal items then 0 else 10)
    ∧ (calculateTotals [hundredItem]).shipping = 0 ∧ rawSubtotal [hundredItem] = 100
    ∧ (calculateTotals [ninetyNineItem]).shipping = 10
    ∧ rawSubtotal [ninetyNineItem] = 9999/100 := by
  have hs : (calculateTotals items).shipping
      = round2 (if 100 ≤ rawSubtotal items then 0 else 10) := rfl
  refine ⟨?_, ?_, ?_, ?_, ?_⟩
  · rw [hs]
    by_cases h : 100 ≤ rawSubtotal items
    · rw [if_pos h]
      norm_num [round2]
    · rw [if_neg h]
      norm_num [round2]
  · show round2 (if 100 ≤ rawSubtotal [hundredItem] then 0 else 10) = 0
    norm_num [rawSubtotal, hundredItem, round2]
  · norm_num [rawSubtotal, hundredItem]
  · show round2 (if 100 ≤ rawSubtotal [ninetyNineItem] then 0 else 10) = 10
    norm_num [rawSubtotal, ninetyNineItem, round2]
  · norm_num [rawSubtotal, ninetyNineItem]

/-- C6 counterexample: add a line and remove it again — the cart is empty but
its recomputed totals still charge the flat shipping fee (total 10); the
rehydration guard `items.length > 0` skips recomputation for the empty list,
so after a persist/rehydrate round trip the total is 0 instead of 10. -/
theorem rehydration_counterexample :
    (applyOps emptyByRemovalOps).items = []
    ∧ (applyOps emptyByRemovalOps).total = 10
    ∧ (rehydrate (persistedItems (applyOps emptyByRemovalOps))).total = 0 := by
  refine ⟨rfl, ?_, rfl⟩
  show (calculateTotals []).total = 10
  norm_num [calculateTotals, rawSubtotal, round2]

/-- C6 amended: a persist/rehydrate round trip always restores an equal line
list, and restores equal totals whenever the line list is non-empty; for a cart
emptied by a removal mutation the pre-discard totals (shipping 10, total 10)
are replaced by zeros because the rehydration callback skips empty lists. -/
theorem rehydration_amended (ops : List CartOp) :
    (rehydrate (persistedItems (applyOps ops))).items = (applyOps ops).items
    ∧ ((applyOps ops).items ≠ [] →
        stateTotals (rehydrate (persistedItems (applyOps ops))) = stateTotals (applyOps ops)) := by
  constructor
  · simp only [rehydrate, persistedItems]
    by_cases h : 0 < (applyOps ops).items.length
    · simp [h, items_applyTotals]
    · simp [h]
  · intro hne
    have hlen : 0 < (applyOps ops).items.length := List.length_pos.mpr hne
    have hsync : stateTotals (applyOps ops) = calculateTotals (applyOps ops).items := by
      rcases (storeInv_applyOps ops).2 with h | ⟨hitems, _⟩
      · exact h
      · exact absurd hitems hne
    simp only [rehydrate, persistedItems, if_pos hlen, stateTotals_applyTotals]
    exact hsync.symm

/-- C6 witness: for a one-line cart the persist/rehydrate round trip preserves
the totals. -/
theorem rehydration_amended_witness :
    oneLineState.items ≠ []
    ∧ stateTotals (rehydrate (persistedItems (applyOps [CartOp.addOp "a1" sampleProduct 1 none])))
        = stateTotals (applyOps [CartOp.addOp "a1" sampleProduct 1 none]) :=
  ⟨by decide, (rehydration_amended [CartOp.addOp "a1" sampleProduct 1 none]).2 (by decide)⟩

/-- C7: the local cart is cleared only on the success path — whenever
`handleCheckout` produces no redirect URL the store state is exactly the
pre-checkout state, and a redirect implies precisely `clearCart` followed by
`closeCart`. -/
theorem checkout_never_clears_on_failure (fetchResp : Nat → FetchResponse) (s : CartState) :
    ((handleCheckout fetchResp s).redirectedTo = none → (handleCheckout fetchResp s).state = s)
    ∧ (∀ url, (handleCheckout fetchResp s).redirectedTo = some url →
        (handleCheckout fetchResp s).state = closeCart (clearCart s)) := by
  by_cases he : s.items.isEmpty
  · have hres : handleCheckout fetchResp s =
        { state := s, redirectedTo := none, errorMessage := none, warnings := 0,
          remoteCalls := 0 } := by
      simp [handleCheckout, he]
    rw [hres]
    exact ⟨fun _ => rfl, fun url h => by simp at h⟩
  · cases hl : checkoutLoop fetchResp s.items
        { checkoutUrl := none, warnings := 0, calls := 0 } with
    | error p =>
        obtain ⟨e, st⟩ := p
        have hres : handleCheckout fetchResp s =
            { state := s, redirectedTo := none, errorMessage := some e,
              warnings := st.warnings, remoteCalls := st.calls } := by
          simp [handleCheckout, he, hl]
        rw [hres]
        exact ⟨fun _ => rfl, fun url h => by simp at h⟩
    | ok st =>
        cases hu : st.checkoutUrl with
        | none =>
            have hres : handleCheckout fetchResp s =
                { state := s, redirectedTo := none,
                  errorMessage := some "No checkout URL received",
                  warnings := st.warnings, remoteCalls := st.calls } := by
              simp [handleCheckout, he, hl, hu]
            rw [hres]
            exact ⟨fun _ => rfl, fun url h => by simp at h⟩
        | some url =>
            have hres : handleCheckout fetchResp s =
                { state := closeCart (clearCart s), redirectedTo := some url,
                  errorMessage := none, warnings := st.warnings,
                  remoteCalls := st.calls } := by
              simp [handleCheckout, he, hl, hu]
            rw [hres]
            exact ⟨fun h => by simp at h, fun url' _ => rfl⟩

/-- C7 witness: with a failing fetch oracle, checkout of a one-line cart
returns no URL and leaves the store state untouched. -/
theorem checkout_never_clears_on_failure_witness :
    (handleCheckout failFetch oneResolvableState).redirectedTo = none
    ∧ (handleCheckout failFetch oneResolvableState).state = oneResolvableState :=
  ⟨rfl, (checkout_never_clears_on_failure failFetch oneResolvableState).1 rfl⟩

theorem checkoutLoop_ok_counts (fetchResp : Nat → FetchResponse)
    (hok : ∀ n, (fetchResp n).ok = true)
    (hurl : ∀ n, (fetchResp n).checkoutUrl ≠ none) :
    ∀ (items : List CartItem) (st : CheckoutLoopState),
      ∃ st', checkoutLoop fetchResp items st = .ok st'
        ∧ st'.calls = st.calls
            + (items.filter (fun it => (resolveCheckoutVariantId it).isSome)).length
        ∧ st'.warnings = st.warnings
            + (items.filter (fun it => (resolveCheckoutVariantId it).isNone)).length
        ∧ ((st.checkoutUrl ≠ none
              ∨ items.filter (fun it => (resolveCheckoutVariantId it).isSome) ≠ []) →
            st'.checkoutUrl ≠ none) := by
  intro items
  induction items with
  | nil =>
      intro st
      refine ⟨st, rfl, by simp, by simp, ?_⟩
      rintro (h | h)
      · exact h
      · simp at h
  | cons it rest ih =>
      intro st
      cases hres : resolveCheckoutVariantId it with
      | none =>
          obtain ⟨st', hrun, hcalls, hwarn, hu⟩ := ih { st with warnings := st.warnings + 1 }
          refine ⟨st', ?_, ?_, ?_, ?_⟩
          · simpa only [checkoutLoop, hres] using hrun
          · simpa [List.filter_cons, hres] using hcalls
          · rw [hwarn]
            simp [List.filter_cons, hres]
            omega
          · intro h
            refine hu ?_
            rcases h with h | h
            · exact Or.inl h
            · refine Or.inr ?_
              simpa [List.filter_cons, hres] using h
      | some v =>
          obtain ⟨st', hrun, hcalls, hwarn, hu⟩ :=
            ih { st with calls := st.calls + 1, checkoutUrl := (fetchResp st.calls).checkoutUrl }
          refine ⟨st', ?_, ?_, ?_, ?_⟩
          · simpa only [checkoutLoop, hres, hok st.calls, if_true] using hrun
          · rw [hcalls]
            simp [List.filter_cons, hres]
            omega
          · simpa [List.filter_cons, hres] using hwarn
          · intro _
            exact hu (Or.inl (hurl st.calls))

/-- C8: when every issued remote call succeeds and carries a checkout URL,
`handleCheckout` issues exactly one remote call per line with a resolvable
variant id, logs exactly one warning per unresolvable line, and returns a
redirect URL as soon as at least one line was resolvable. -/
theorem checkout_partial_failure (fetchResp : Nat → FetchResponse) (s : CartState)
    (hok : ∀ n, (fetchResp n).ok = true)
    (hurl : ∀ n, (fetchResp n).checkoutUrl ≠ none) :
    (handleCheckout fetchResp s).remoteCalls
        = (s.items.filter (fun it => (resolveCheckoutVariantId it).isSome)).length
    ∧ (handleCheckout fetchResp s).warnings
        = (s.items.filter (fun it => (resolveCheckoutVariantId it).isNone)).length
    ∧ (s.items.filter (fun it => (resolveCheckoutVariantId it).isSome) ≠ [] →
        (handleCheckout fetchResp s).redirectedTo ≠ none) := by
  obtain ⟨st', hrun, hcalls, hwarn, hu⟩ :=
    checkoutLoop_ok_counts fetchResp hok hurl s.items
      { checkoutUrl := none, warnings := 0, calls := 0 }
  by_cases he : s.items.isEmpty
  · have hnil : s.items = [] := by simpa [List.isEmpty_iff] using he
    have hres : handleCheckout fetchResp s =
        { state := s, redirectedTo := none, errorMessage := none, warnings := 0,
          remoteCalls := 0 } := by
      simp [handleCheckout, he]
    rw [hres, hnil]
    simp
  · cases hu' : st'.checkoutUrl with
    | none =>
        have hres : handleCheckout fetchResp s =
            { state := s, redirectedTo := none,
              errorMessage := some "No checkout URL received",
              warnings := st'.warnings, remoteCalls := st'.calls } := by
          simp [handleCheckout, he, hrun, hu']
        rw [hres]
        refine ⟨by simpa using hcalls, by simpa using hwarn, ?_⟩
        intro hne
        exact absurd hu' (hu (Or.inr hne))
    | some url =>
        have hres : handleCheckout fetchResp s =
            { state := closeCart (clearCart s), redirectedTo := some url,
              errorMessage := none, warnings := st'.warnings,
              remoteCalls := st'.calls } := by
          simp [handleCheckout, he, hrun, hu']
        rw [hres]
        exact ⟨by simpa using hcalls, by simpa using hwarn, fun _ => by simp⟩

/-- C8 witness: for the three-line cart with exactly one unresolvable line and
an always-succeeding oracle, exactly two remote calls are issued, one warning
is logged, and a checkout URL is returned. -/
theorem checkout_partial_failure_witness :
    (handleCheckout okFetch threeLineState).remoteCalls = 2
    ∧ (handleCheckout okFetch threeLineState).warnings = 1
    ∧ (handleCheckout okFetch threeLineState).redirectedTo ≠ none := by
  have h := checkout_partial_failure okFetch threeLineState (fun _ => rfl)
    (fun n => by simp [okFetch])
  refine ⟨?_, ?_, h.2.2 (by decide)⟩
  · rw [h.1]
    decide
  · rw [h.2.1]
    decide

/-- C9: every reconciliation-service operation is a total function returning an
optional cart — a thrown client request, a transport-level error list, and a
non-empty `userErrors` list inside a success envelope all yield the same
failure indicator (`none`); and `createCart` either leaves the service state
untouched or returns a cart and records exactly that cart's id. -/
theorem remote_failure_handling (st : ServiceState) (msg : String)
    (data : Option MutationEnvelope) (gdata : Option QueryEnvelope)
    (c : Option ShopifyCart) (u : UserError) (us : List UserError)
    (getResp : ClientResult QueryEnvelope) (createResp : ClientResult MutationEnvelope) :
    createCart st (.thrown msg) = (st, none)
    ∧ createCart st (.reply data true) = (st, none)
    ∧ createCart st (.reply (some { cart := c, userErrors := u :: us }) false) = (st, none)
    ∧ (∀ cart : ShopifyCart, createCart st (.reply (some { cart := some cart, userErrors := [] }) false)
        = ({ cartId := some cart.id }, some cart))
    ∧ (∀ resp : ClientResult MutationEnvelope,
        (createCart st resp).1 = st
          ∨ ∃ cart : ShopifyCart, (createCart st resp).2 = some cart
              ∧ (createCart st resp).1.cartId = some cart.id)
    ∧ getCart st (.thrown msg) = none
    ∧ getCart st (.reply gdata true) = none
    ∧ (serviceAddItem st getResp createResp (.thrown msg)).2 = none
    ∧ (serviceAddItem st getResp createResp (.reply data true)).2 = none
    ∧ (serviceAddItem st getResp createResp
        (.reply (some { cart := c, userErrors := u :: us }) false)).2 = none
    ∧ serviceUpdateQuantity st (.thrown msg) = none
    ∧ serviceUpdateQuantity st (.reply data true) = none
    ∧ serviceUpdateQuantity st (.reply (some { cart := c, userErrors := u :: us }) false) = none
    ∧ serviceRemoveItem st (.thrown msg) = none
    ∧ serviceRemoveItem st (.reply data true) = none
    ∧ serviceRemoveItem st (.reply (some { cart := c, userErrors := u :: us }) false) = none := by
  refine ⟨rfl, ?_, ?_, ?_, ?_, ?_, ?_, ?_, ?_, ?_, ?_, ?_, ?_, ?_, ?_, ?_⟩
  · simp [createCart]
  · simp [createCart, envelopeHasUserErrors]
  · intro cart
    simp [createCart, envelopeHasUserErrors]
  · intro resp
    cases resp with
    | thrown m => exact Or.inl rfl
    | reply d e =>
        by_cases hf : (e || envelopeHasUserErrors d) = true
        · simp [createCart, hf]
        · cases d with
          | none => simp [createCart, hf]
          | some env =>
              cases hc : env.cart with
              | none => simp [createCart, hf, hc]
              | some cart =>
                  refine Or.inr ⟨cart, ?_, ?_⟩ <;> simp [createCart, hf, hc]
  · cases hs : st.cartId <;> simp [getCart, hs]
  · cases hs : st.cartId <;> simp [getCart, hs]
  · rcases hg : getOrCreateCart st getResp createResp with ⟨st1, c1⟩
    cases c1 <;> simp [serviceAddItem, hg]
  · rcases hg : getOrCreateCart st getResp createResp with ⟨st1, c1⟩
    cases c1 <;> simp [serviceAddItem, hg]
  · rcases hg : getOrCreateCart st getResp createResp with ⟨st1, c1⟩
    cases c1 <;> simp [serviceAddItem, hg, envelopeHasUserErrors]
  · cases hs : st.cartId <;> simp [serviceUpdateQuantity, hs]
  · cases hs : st.cartId <;> simp [serviceUpdateQuantity, hs]
  · cases hs : st.cartId <;> simp [serviceUpdateQuantity, hs, envelopeHasUserErrors]
  · cases hs : st.cartId <;> simp [serviceRemoveItem, hs]
  · cases hs : st.cartId <;> simp [serviceRemoveItem, hs]
  · cases hs : st.cartId <;> simp [serviceRemoveItem, hs, envelopeHasUserErrors]

/-- C10: the three visibility actions change only the `isOpen` flag (items and
all five totals fields are untouched), and conversely every item mutation
leaves `isOpen` unchanged. -/
theorem visibility_frame (s : CartState) (freshId : String) (P : Product) (q : Int)
    (vid : Option String) (itemId : String) :
    ((openCart s).items = s.items ∧ stateTotals (openCart s) = stateTotals s
      ∧ (openCart s).isOpen = true)
    ∧ ((closeCart s).items = s.items ∧ stateTotals (closeCart s) = stateTotals s
      ∧ (closeCart s).isOpen = false)
    ∧ ((toggleCart s).items = s.items ∧ stateTotals (toggleCart s) = stateTotals s
      ∧ (toggleCart s).isOpen = !s.isOpen)
    ∧ (addItem freshId P q vid s).isOpen = s.isOpen
    ∧ (updateQuantity itemId q s).isOpen = s.isOpen
    ∧ (removeItem itemId s).isOpen = s.isOpen
    ∧ (clearCart s).isOpen = s.isOpen := by
  refine ⟨⟨rfl, rfl, rfl⟩, ⟨rfl, rfl, rfl⟩, ⟨rfl, rfl, rfl⟩, rfl, ?_, rfl, rfl⟩
  by_cases hq : q ≤ 0
  · simp only [updateQuantity, if_pos hq]
    rfl
  · simp only [updateQuantity, if_neg hq]
    rfl

end CartSpec
